import Mathlib

/-!
# A shallow embedding of `src/stencil-async.ts`

The source module lets a component's render function read the latest value of
a Promise or an RxJS Observable synchronously.  We embed it as a state machine:

* JS `Map`s become association lists (`alistGet` / `alistSet` / `alistDelete`
  mirror `Map.get` / `Map.set` / `Map.delete`, keeping insertion order);
* JS values that flow through the cache are modelled by `JSVal`
  (`undef`/`null` are needed because the code uses them as sentinels, and
  `arr` because the promise continuation `(...res) => ...` stores its
  rest-argument array);
* Promises and Observables are named by `Nat` identities; a read argument is
  a `SrcVal` carrying the capability flags that `isPromise`/`isSubscribable`
  inspect;
* `forceUpdate` appends to a re-render log; `console.error` bumps a counter;
* an RxJS subscription is a record with an `active` flag: `unsubscribe`
  clears the flag, and an emission is delivered only to active
  subscriptions (the guarantee the subscription primitive provides);
* the `.then` continuation attached by `getPromiseValue` closes over the
  `compReg` object; a generation number on each registration models that
  object identity, so a late continuation firing after destroy writes only
  to the orphaned object (no visible store change) but still calls
  `forceUpdate` — exactly as the source does;
* `getRenderingRef()` is threaded through as an explicit component
  parameter: the read operations are only invoked while that component's
  render pass is running.
-/

/-- A JavaScript value as it flows through the value cache.  `arr v` is the
one-element array `[v]`: the only array the embedded code ever constructs is
the rest-argument array of the `.then` callback, and a fulfilment callback
receives exactly one argument. -/
inductive JSVal where
  | undef : JSVal
  | null : JSVal
  | num : Int → JSVal
  | str : String → JSVal
  | arr : JSVal → JSVal
  deriving DecidableEq, Repr

/-- The argument of the public read operation, described by the capabilities
`isPromise` / `isSubscribable` inspect: `nullish` is true for a falsy value
(`null`/`undefined`), `hasThen` / `hasSubscribe` say whether `.then` /
`.subscribe` is a callable method, and `srcId` is the object identity used as
the key of the promise/observable maps. -/
structure SrcVal where
  nullish : Bool
  hasThen : Bool
  hasSubscribe : Bool
  srcId : Nat
  deriving DecidableEq, Repr

/-- A function stored in a component's hook slot: either an original function
of the component author (named by an identity), or one of the three wrapper
closures `init` installs for a given component. -/
inductive HookVal where
  | orig : Nat → HookVal
  | wrappedConnected : Nat → HookVal
  | wrappedDisconnected : Nat → HookVal
  | wrappedRender : Nat → HookVal
  deriving DecidableEq, Repr

/-- The three optional hook slots of a `ComponentInterface`. -/
structure Component where
  connectedCallback : Option HookVal
  disconnectedCallback : Option HookVal
  render : Option HookVal
  deriving DecidableEq, Repr

/-- `ObservableRegistration`: the cancel handle returned by `subscribe`
(named by a subscription identity) plus the optional `result` field, which is
set the first time the subscription callback runs. -/
structure ObservableRegistration where
  subscription : Nat
  result : Option JSVal
  deriving DecidableEq, Repr

/-- `ComponentRegistration`: per-component async-binding state.  `promises`
maps a promise identity to the stored map value (the code stores `null` as
the pending sentinel and later the continuation's rest-argument array);
`observables` maps an observable identity to its registration;
`recentlyUsedObservables` lists the observables read during the current
render pass; the `orig...` fields are the hook snapshot taken by `init`. -/
structure ComponentRegistration where
  promises : List (Nat × JSVal)
  observables : List (Nat × ObservableRegistration)
  recentlyUsedObservables : List Nat
  origConnectedCallback : Option HookVal
  origDisconnectedCallback : Option HookVal
  origRender : Option HookVal
  deriving DecidableEq, Repr

/-- A `.then` continuation attached by `getPromiseValue`: it closes over the
promise, the component and the `compReg` object current at attach time (the
latter modelled by the registration generation `gen`). -/
structure PendingThen where
  promiseId : Nat
  comp : Nat
  gen : Nat
  deriving DecidableEq, Repr

/-- An RxJS subscription: its identity, the observable it listens to, the
component whose read created it, and whether it is still active
(`unsubscribe` clears `active`; emissions are delivered only while active). -/
structure SubscriptionRec where
  id : Nat
  obsId : Nat
  comp : Nat
  active : Bool
  deriving DecidableEq, Repr

/-- The whole mutable world: the component objects, the module-level
`componentRegistrations` map (each entry tagged with its generation), the
live subscriptions, the attached `.then` continuations, fresh-identity
counters, the `forceUpdate` log and the `console.error` counter. -/
structure SysState where
  components : List (Nat × Component)
  componentRegistrations : List (Nat × (Nat × ComponentRegistration))
  subs : List SubscriptionRec
  pendingThens : List PendingThen
  nextSub : Nat
  nextGen : Nat
  rerenders : List Nat
  errors : Nat
  deriving DecidableEq, Repr

/-- The external world: what an original render function does when invoked
(the reads it performs and the value it returns), and the values an
observable emits synchronously while `subscribe` is still running. -/
structure Env where
  renderBehavior : Nat → List SrcVal × JSVal
  obsSyncEmits : Nat → List JSVal

/-- `Map.get`, keeping the first (unique) entry for a key. -/
def alistGet (k : Nat) : List (Nat × α) → Option α
  | [] => none
  | (k', v') :: rest => if k = k' then some v' else alistGet k rest

/-- `Map.set`: update in place if the key is present, else append. -/
def alistSet (k : Nat) (v : α) : List (Nat × α) → List (Nat × α)
  | [] => [(k, v)]
  | (k', v') :: rest => if k = k' then (k, v) :: rest else (k', v') :: alistSet k v rest

/-- `Map.delete`. -/
def alistDelete (k : Nat) : List (Nat × α) → List (Nat × α)
  | [] => []
  | (k', v') :: rest => if k = k' then rest else (k', v') :: alistDelete k rest

/-- `Map.has`. -/
def alistHas (k : Nat) (l : List (Nat × α)) : Bool :=
  (alistGet k l).isSome

/-- A component object that defines none of the three hooks; also the
object returned for a component identity not yet in `components`. -/
def emptyComponent : Component :=
  { connectedCallback := none, disconnectedCallback := none, render := none }

/-- The current component object for an identity. -/
def getComponent (c : Nat) (s : SysState) : Component :=
  (alistGet c s.components).getD emptyComponent

/-- `forceUpdate(component)`: append to the re-render log. -/
def forceUpdate (c : Nat) (s : SysState) : SysState :=
  { s with rerenders := s.rerenders ++ [c] }

/-- `isPromise(obj)`: `!!obj && typeof obj.then === 'function'`. -/
def isPromise (obj : SrcVal) : Bool :=
  !obj.nullish && obj.hasThen

/-- `isSubscribable(obj)`: `!!obj && typeof obj.subscribe === 'function'`. -/
def isSubscribable (obj : SrcVal) : Bool :=
  !obj.nullish && obj.hasSubscribe

/-- `init(component)`: if already registered do nothing; otherwise snapshot
the current hooks into `origMethods`, store a fresh registration (with a
fresh generation standing for the new `compReg` object), and replace the
three hook slots with the wrapper closures. -/
def init (c : Nat) (s : SysState) : SysState :=
  if alistHas c s.componentRegistrations then s
  else
    let comp := getComponent c s
    let gen := s.nextGen
    let compReg : ComponentRegistration :=
      { promises := []
        observables := []
        recentlyUsedObservables := []
        origConnectedCallback := comp.connectedCallback
        origDisconnectedCallback := comp.disconnectedCallback
        origRender := comp.render }
    { s with
      componentRegistrations := alistSet c (gen, compReg) s.componentRegistrations
      nextGen := gen + 1
      components := alistSet c
        { connectedCallback := some (HookVal.wrappedConnected c)
          disconnectedCallback := some (HookVal.wrappedDisconnected c)
          render := some (HookVal.wrappedRender c) } s.components }

/-- `destroy(component)`: if not registered do nothing; otherwise
unsubscribe every registered observable's subscription, delete the
registration, and write the `origMethods` snapshot back into the three hook
slots (unconditionally, whatever the slots hold now). -/
def destroy (c : Nat) (s : SysState) : SysState :=
  match alistGet c s.componentRegistrations with
  | none => s
  | some (_gen, compReg) =>
    let subs' := s.subs.map (fun sub =>
      if compReg.observables.any (fun e => e.2.subscription = sub.id)
      then { sub with active := false } else sub)
    { s with
      subs := subs'
      componentRegistrations := alistDelete c s.componentRegistrations
      components := alistSet c
        { connectedCallback := compReg.origConnectedCallback
          disconnectedCallback := compReg.origDisconnectedCallback
          render := compReg.origRender } s.components }

/-- `unregisterObservable(component, observable)`: unsubscribe the
observable's registered subscription (if a registration exists) and delete
it from `observables`. -/
def unregisterObservable (c : Nat) (o : Nat) (s : SysState) : SysState :=
  match alistGet c s.componentRegistrations with
  | none => s
  | some (gen, compReg) =>
    let subs' := match alistGet o compReg.observables with
      | none => s.subs
      | some reg => s.subs.map (fun sub =>
          if sub.id = reg.subscription then { sub with active := false } else sub)
    { s with
      subs := subs'
      componentRegistrations := alistSet c
        (gen, { compReg with observables := alistDelete o compReg.observables })
        s.componentRegistrations }

/-- `getComponentRegistration(component)`: run `init` if the component is
not registered, then return the (generation-tagged) registration. -/
def getComponentRegistration (c : Nat) (s : SysState) :
    SysState × (Nat × ComponentRegistration) :=
  let s' := init c s
  (s', (alistGet c s'.componentRegistrations).getD
    (0, { promises := [], observables := [], recentlyUsedObservables := [],
          origConnectedCallback := none, origDisconnectedCallback := none,
          origRender := none }))

/-- `getPromiseValue(promise)` for the component returned by
`getRenderingRef()`: on first sight of the promise, store `null` in the map
and attach the `.then` continuation; then return whatever the map holds.
(`Map.get` of an absent key would be `undefined`; the key is always present
here.) -/
def getPromiseValue (c : Nat) (p : Nat) (s : SysState) : SysState × JSVal :=
  let gcr := getComponentRegistration c s
  let s1 := gcr.1
  let gen := gcr.2.1
  let compReg := gcr.2.2
  let step :=
    if alistHas p compReg.promises then (s1, compReg)
    else
      let compReg' := { compReg with promises := alistSet p JSVal.null compReg.promises }
      ({ s1 with
          componentRegistrations :=
            alistSet c (gen, compReg') s1.componentRegistrations
          pendingThens := s1.pendingThens ++ [⟨p, c, gen⟩] },
        compReg')
  (step.1, (alistGet p step.2.promises).getD JSVal.undef)

/-- The body of the `.then` continuation attached in `getPromiseValue`,
fired when the promise settles with value `v`:
`compReg.promises.set(promise, res); forceUpdate(component);` where `res` is
the rest-argument array `[v]`.  The write lands in the registration store
only if the captured `compReg` object (identified by its generation) is
still the component's current registration; `forceUpdate` runs
unconditionally. -/
def runThen (pt : PendingThen) (v : JSVal) (s : SysState) : SysState :=
  let s' := match alistGet pt.comp s.componentRegistrations with
    | some (gen, compReg) =>
      if gen = pt.gen then
        let compReg' := { compReg with
          promises := alistSet pt.promiseId (JSVal.arr v) compReg.promises }
        { s with componentRegistrations :=
            alistSet pt.comp (gen, compReg') s.componentRegistrations }
      else s
    | none => s
  forceUpdate pt.comp s'

/-- The external event "promise `p` settles with value `v`": every attached
continuation for `p` fires exactly once and is consumed. -/
def resolvePromise (p : Nat) (v : JSVal) (s : SysState) : SysState :=
  let fired := s.pendingThens.filter (fun pt => pt.promiseId = p)
  let s' := { s with pendingThens := s.pendingThens.filter (fun pt => pt.promiseId ≠ p) }
  fired.foldl (fun acc pt => runThen pt v acc) s'

/-- `getObservableValue(obs$)` for the component returned by
`getRenderingRef()`: push the observable onto `recentlyUsedObservables`; if
it has no registration yet, subscribe — the callback may fire synchronously
during `subscribe` (once per element of `env.obsSyncEmits o`), writing the
placeholder record's `result` and calling `forceUpdate` each time — and
store the completed record; finally return
`compReg.observables.get(obs$)?.result`. -/
def getObservableValue (env : Env) (c : Nat) (o : Nat) (s : SysState) :
    SysState × JSVal :=
  let gcr := getComponentRegistration c s
  let s1 := gcr.1
  let gen := gcr.2.1
  let compReg := gcr.2.2
  let compReg1 := { compReg with
    recentlyUsedObservables := compReg.recentlyUsedObservables ++ [o] }
  let s2 := { s1 with
    componentRegistrations := alistSet c (gen, compReg1) s1.componentRegistrations }
  let step :=
    if alistHas o compReg1.observables then (s2, compReg1)
    else
      let subId := s2.nextSub
      let syncEmits := env.obsSyncEmits o
      let result : Option JSVal := syncEmits.foldl (fun _ v => some v) none
      let compReg2 := { compReg1 with
        observables := alistSet o { subscription := subId, result := result }
          compReg1.observables }
      ({ s2 with
          nextSub := subId + 1
          subs := s2.subs ++ [{ id := subId, obsId := o, comp := c, active := true }]
          rerenders := s2.rerenders ++ syncEmits.map (fun _ => c)
          componentRegistrations :=
            alistSet c (gen, compReg2) s2.componentRegistrations },
        compReg2)
  (step.1, match alistGet o step.2.observables with
    | none => JSVal.undef
    | some reg => reg.result.getD JSVal.undef)

/-- The subscription callback attached in `getObservableValue`, as run by
the subscription primitive for one subscription when its observable emits
`v`: nothing happens if the subscription was cancelled; otherwise the
callback sets `observableReg.result = v` (visible in the store only while
that record — identified by its subscription handle — is still the one
registered) and calls `forceUpdate(component)`. -/
def deliverEmission (sub : SubscriptionRec) (v : JSVal) (s : SysState) : SysState :=
  if sub.active then
    let s' := match alistGet sub.comp s.componentRegistrations with
      | some (gen, compReg) =>
        match alistGet sub.obsId compReg.observables with
        | some reg =>
          if reg.subscription = sub.id then
            let reg' := { reg with result := some v }
            let compReg' := { compReg with
              observables := alistSet sub.obsId reg' compReg.observables }
            { s with componentRegistrations :=
                alistSet sub.comp (gen, compReg') s.componentRegistrations }
          else s
        | none => s
      | none => s
    forceUpdate sub.comp s'
  else s

/-- The external event "observable `o` emits `v`": the emission is delivered
to every subscription on `o` that exists at that moment. -/
def emit (o : Nat) (v : JSVal) (s : SysState) : SysState :=
  (s.subs.filter (fun sub => sub.obsId = o)).foldl
    (fun acc sub => deliverEmission sub v acc) s

/-- `getAsyncValue(obj)`: classify by capability — the promise check runs
first — and dispatch; an invalid value is reported with `console.error` and
the function returns `undefined`. -/
def getAsyncValue (env : Env) (c : Nat) (obj : SrcVal) (s : SysState) :
    SysState × JSVal :=
  if isPromise obj then getPromiseValue c obj.srcId s
  else if isSubscribable obj then getObservableValue env c obj.srcId s
  else ({ s with errors := s.errors + 1 }, JSVal.undef)

/-- The public read operation `async(obj)`; `getRenderingRef()` is the
explicit parameter `c`. -/
def async (env : Env) (c : Nat) (obj : SrcVal) (s : SysState) : SysState × JSVal :=
  getAsyncValue env c obj s

/-- Run a sequence of reads, as an original render body performs them while
its component is the rendering ref. -/
def runReads (env : Env) (c : Nat) (reads : List SrcVal) (s : SysState) : SysState :=
  reads.foldl (fun acc r => (getAsyncValue env c r acc).1) s

/-- What invoking an original render hook does: an author-written function
behaves as `env.renderBehavior` prescribes.  (In every reachable state the
`origMethods.render` snapshot is an author-written `HookVal.orig` function;
the wrapper cases are unreachable fallbacks.) -/
def origRenderBehavior (env : Env) : HookVal → List SrcVal × JSVal
  | HookVal.orig n => env.renderBehavior n
  | _ => ([], JSVal.undef)

/-- `compReg.recentlyUsedObservables = [];` — the first statement of the
wrapped render hook past its guard. -/
def clearRecentlyUsed (c : Nat) (s : SysState) : SysState :=
  match alistGet c s.componentRegistrations with
  | none => s
  | some (gen, compReg) =>
    let compReg' := { compReg with recentlyUsedObservables := [] }
    { s with componentRegistrations :=
        alistSet c (gen, compReg') s.componentRegistrations }

/-- The reaper inside the wrapped render hook: take the keys of
`observables`, keep those not contained in `recentlyUsedObservables`, and
`unregisterObservable` each. -/
def reapUnused (c : Nat) (s : SysState) : SysState :=
  match alistGet c s.componentRegistrations with
  | none => s
  | some (_, compReg) =>
    ((compReg.observables.map Prod.fst).filter
        (fun o => !compReg.recentlyUsedObservables.contains o)).foldl
      (fun acc o => unregisterObservable c o acc) s

/-- The tail of the wrapped render hook: if `recentlyUsedObservables` is
empty and the promise map is empty, completely remove stencil-async from
the component. -/
def destroyIfUnused (c : Nat) (s : SysState) : SysState :=
  match alistGet c s.componentRegistrations with
  | none => s
  | some (_, compReg) =>
    if compReg.recentlyUsedObservables.length = 0 && compReg.promises.length = 0
    then destroy c s else s

/-- The wrapped render hook `init` installs for component `c`: return
`undefined` at once if there is no original render; otherwise clear
`recentlyUsedObservables`, invoke the original render (capturing its
result), reap the observables the pass did not use, destroy the binding if
nothing is left in use, and return the captured result.  (The `none`
registration case is an unreachable fallback: the wrapper sits in the hook
slot only while its registration exists.) -/
def wrappedRender (env : Env) (c : Nat) (s : SysState) : SysState × JSVal :=
  match alistGet c s.componentRegistrations with
  | none => (s, JSVal.undef)
  | some (_, compReg) =>
    match compReg.origRender with
    | none => (s, JSVal.undef)
    | some hv =>
      let rb := origRenderBehavior env hv
      let s1 := clearRecentlyUsed c s
      let s2 := runReads env c rb.1 s1
      let s3 := reapUnused c s2
      let s4 := destroyIfUnused c s3
      (s4, rb.2)

/-- The wrapped connected hook: re-run `init` (the original connected
callback is external and has no effect on this state). -/
def wrappedConnected (c : Nat) (s : SysState) : SysState :=
  init c s

/-- The wrapped disconnected hook: destroy the binding (the original
disconnected callback is external and has no effect on this state). -/
def wrappedDisconnected (c : Nat) (s : SysState) : SysState :=
  destroy c s

/-- The state before anything has happened. -/
def emptyState : SysState :=
  { components := [], componentRegistrations := [], subs := [],
    pendingThens := [], nextSub := 0, nextGen := 0, rerenders := [], errors := 0 }

/-- An environment whose render bodies read nothing and whose observables
emit nothing synchronously; used for concrete traces. -/
def env0 : Env :=
  { renderBehavior := fun _ => ([], JSVal.undef), obsSyncEmits := fun _ => [] }


/-! ## Association-list lemmas -/

theorem alistGet_set_self {α : Type} (k : Nat) (v : α) (l : List (Nat × α)) :
    alistGet k (alistSet k v l) = some v := by
  induction l with
  | nil => simp [alistSet, alistGet]
  | cons hd tl ih =>
    by_cases h : k = hd.1
    · simp [alistSet, alistGet, h]
    · simp [alistSet, alistGet, h, ih]

theorem alistGet_set_ne {α : Type} {k k' : Nat} (h : k ≠ k') (v : α) (l : List (Nat × α)) :
    alistGet k (alistSet k' v l) = alistGet k l := by
  induction l with
  | nil => simp [alistSet, alistGet, h]
  | cons hd tl ih =>
    by_cases h' : k' = hd.1
    · subst h'
      simp [alistSet, alistGet, h]
    · by_cases h'' : k = hd.1
      · simp [alistSet, alistGet, h', h'']
      · simp [alistSet, alistGet, h', h'', ih]

theorem alistGet_delete_ne {α : Type} {k k' : Nat} (h : k ≠ k') (l : List (Nat × α)) :
    alistGet k (alistDelete k' l) = alistGet k l := by
  induction l with
  | nil => simp [alistDelete]
  | cons hd tl ih =>
    by_cases h' : k' = hd.1
    · subst h'
      simp [alistDelete, alistGet, h]
    · by_cases h'' : k = hd.1
      · simp [alistDelete, alistGet, h', h'']
      · simp [alistDelete, alistGet, h', h'', ih]

theorem alistGet_eq_none {α : Type} {k : Nat} {l : List (Nat × α)}
    (h : k ∉ l.map Prod.fst) : alistGet k l = none := by
  induction l with
  | nil => rfl
  | cons hd tl ih =>
    simp only [List.map_cons, List.mem_cons] at h
    push_neg at h
    simp only [alistGet, if_neg h.1]
    exact ih h.2

theorem mem_keys_of_alistGet {α : Type} {k : Nat} {v : α} {l : List (Nat × α)}
    (h : alistGet k l = some v) : k ∈ l.map Prod.fst := by
  induction l with
  | nil => simp [alistGet] at h
  | cons hd tl ih =>
    simp only [alistGet] at h
    by_cases h' : k = hd.1
    · simp [h']
    · rw [if_neg h'] at h
      simp [ih h]

theorem alistGet_delete_self {α : Type} {k : Nat} {l : List (Nat × α)}
    (h : (l.map Prod.fst).Nodup) : alistGet k (alistDelete k l) = none := by
  induction l with
  | nil => rfl
  | cons hd tl ih =>
    simp only [List.map_cons, List.nodup_cons] at h
    by_cases h' : k = hd.1
    · simp only [alistDelete, if_pos h']
      subst h'
      exact alistGet_eq_none h.1
    · simp only [alistDelete, if_neg h', alistGet, if_neg h']
      exact ih h.2

theorem mem_keys_alistSet {α : Type} {a k : Nat} {v : α} {l : List (Nat × α)}
    (h : a ∈ (alistSet k v l).map Prod.fst) : a = k ∨ a ∈ l.map Prod.fst := by
  induction l with
  | nil => simpa [alistSet] using h
  | cons hd tl ih =>
    by_cases h' : k = hd.1
    · simp only [alistSet, if_pos h', List.map_cons, List.mem_cons] at h
      rcases h with h | h
      · exact Or.inl h
      · exact Or.inr (by simp [h])
    · simp only [alistSet, if_neg h', List.map_cons, List.mem_cons] at h
      rcases h with h | h
      · exact Or.inr (by simp [h])
      · rcases ih h with h | h
        · exact Or.inl h
        · exact Or.inr (by simp [h])

theorem alistSet_keys_nodup {α : Type} {l : List (Nat × α)}
    (h : (l.map Prod.fst).Nodup) (k : Nat) (v : α) :
    ((alistSet k v l).map Prod.fst).Nodup := by
  induction l with
  | nil => simp [alistSet]
  | cons hd tl ih =>
    simp only [List.map_cons, List.nodup_cons] at h
    by_cases h' : k = hd.1
    · subst h'
      have hset : alistSet hd.1 v (hd :: tl) = (hd.1, v) :: tl := by
        cases hd
        simp [alistSet]
      rw [hset]
      simp only [List.map_cons, List.nodup_cons]
      exact ⟨h.1, h.2⟩
    · simp only [alistSet, if_neg h', List.map_cons, List.nodup_cons]
      refine ⟨fun hmem => ?_, ih h.2⟩
      rcases mem_keys_alistSet hmem with h'' | h''
      · exact h' h''.symm
      · exact h.1 h''

theorem mem_keys_alistDelete {α : Type} {a k : Nat} {l : List (Nat × α)}
    (h : a ∈ (alistDelete k l).map Prod.fst) : a ∈ l.map Prod.fst := by
  induction l with
  | nil => simpa [alistDelete] using h
  | cons hd tl ih =>
    by_cases h' : k = hd.1
    · simp only [alistDelete, if_pos h'] at h
      simp [h]
    · simp only [alistDelete, if_neg h', List.map_cons, List.mem_cons] at h
      rcases h with h | h
      · simp [h]
      · simp [ih h]

theorem alistDelete_keys_nodup {α : Type} {l : List (Nat × α)}
    (h : (l.map Prod.fst).Nodup) (k : Nat) :
    ((alistDelete k l).map Prod.fst).Nodup := by
  induction l with
  | nil => simp [alistDelete]
  | cons hd tl ih =>
    simp only [List.map_cons, List.nodup_cons] at h
    by_cases h' : k = hd.1
    · simp only [alistDelete, if_pos h']
      exact h.2
    · simp only [alistDelete, if_neg h', List.map_cons, List.nodup_cons]
      exact ⟨fun hmem => h.1 (mem_keys_alistDelete hmem), ih h.2⟩

theorem alistHas_of_get {α : Type} {k : Nat} {v : α} {l : List (Nat × α)}
    (h : alistGet k l = some v) : alistHas k l = true := by
  simp [alistHas, h]

theorem alistHas_false_iff {α : Type} {k : Nat} (l : List (Nat × α)) :
    alistHas k l = false ↔ alistGet k l = none := by
  cases h : alistGet k l <;> simp [alistHas, h]

/-! ## Basic facts about the operations -/

theorem init_of_registered {s : SysState} {c : Nat}
    (h : alistHas c s.componentRegistrations = true) : init c s = s := by
  simp [init, h]

theorem getComponentRegistration_of_registered {s : SysState} {c gen : Nat}
    {compReg : ComponentRegistration}
    (h : alistGet c s.componentRegistrations = some (gen, compReg)) :
    getComponentRegistration c s = (s, (gen, compReg)) := by
  simp [getComponentRegistration, init_of_registered (alistHas_of_get h), h]

theorem deliverEmission_of_inactive {sub : SubscriptionRec} {v : JSVal} {s : SysState}
    (h : sub.active = false) : deliverEmission sub v s = s := by
  simp [deliverEmission, h]

theorem foldDeliver_of_inactive {v : JSVal} (L : List SubscriptionRec) (t : SysState)
    (h : ∀ sub ∈ L, sub.active = false) :
    L.foldl (fun acc sub => deliverEmission sub v acc) t = t := by
  induction L generalizing t with
  | nil => rfl
  | cons hd tl ih =>
    simp only [List.foldl_cons]
    rw [deliverEmission_of_inactive (h hd (by simp))]
    exact ih t (fun sub hsub => h sub (by simp [hsub]))

theorem emit_of_no_active {o : Nat} {v : JSVal} {s : SysState}
    (h : ∀ sub ∈ s.subs, sub.obsId = o → sub.active = false) : emit o v s = s := by
  unfold emit
  refine foldDeliver_of_inactive _ _ (fun sub hsub => ?_)
  rw [List.mem_filter] at hsub
  exact h sub hsub.1 (by simpa using hsub.2)

theorem destroy_deactivates {s : SysState} {c gen : Nat} {compReg : ComponentRegistration}
    (hreg : alistGet c s.componentRegistrations = some (gen, compReg)) :
    ∀ sub' ∈ (destroy c s).subs,
      (compReg.observables.any (fun e => e.2.subscription = sub'.id)) = true →
        sub'.active = false := by
  intro sub' hmem hany
  simp only [destroy, hreg] at hmem
  rw [List.mem_map] at hmem
  obtain ⟨sub, hsub, rfl⟩ := hmem
  by_cases hcond : compReg.observables.any (fun e => e.2.subscription = sub.id) = true
  · simp [hcond]
  · rw [if_neg hcond] at hany ⊢
    exact absurd hany hcond

/-! ## C9 — invalid sources and classification precedence -/

/-- C9: for every argument that is neither then-capable nor subscribe-capable
(nullish values included), the read operation increments the diagnostic
error counter, returns `undefined` (the unresolved marker), leaves every
other part of the state — in particular the registration store — unchanged,
and returns normally; and for a value that passes the promise capability
check (so in particular one exposing both a callable `then` and a callable
`subscribe`), the promise path is taken. -/
theorem readAsync_invalid_reported_and_promise_precedence
    (env : Env) (c : Nat) (obj : SrcVal) (s : SysState) :
    (isPromise obj = false → isSubscribable obj = false →
      async env c obj s = ({ s with errors := s.errors + 1 }, JSVal.undef))
    ∧ (isPromise obj = true → async env c obj s = getPromiseValue c obj.srcId s) := by
  constructor
  · intro h1 h2
    simp [async, getAsyncValue, h1, h2]
  · intro h1
    simp [async, getAsyncValue, h1]

/-- Witness for C9: a nullish argument is reported and rejected without
creating any binding, and an argument with both capabilities goes down the
promise path. -/
theorem readAsync_invalid_reported_and_promise_precedence_witness :
    (isPromise ⟨true, false, false, 0⟩ = false ∧ isSubscribable ⟨true, false, false, 0⟩ = false
      ∧ async env0 0 ⟨true, false, false, 0⟩ emptyState
          = ({ emptyState with errors := 1 }, JSVal.undef))
    ∧ (isPromise ⟨false, true, true, 9⟩ = true
      ∧ async env0 0 ⟨false, true, true, 9⟩ emptyState = getPromiseValue 0 9 emptyState) :=
  ⟨⟨by decide, by decide,
    (readAsync_invalid_reported_and_promise_precedence env0 0 ⟨true, false, false, 0⟩
      emptyState).1 (by decide) (by decide)⟩,
   ⟨by decide,
    (readAsync_invalid_reported_and_promise_precedence env0 0 ⟨false, true, true, 9⟩
      emptyState).2 (by decide)⟩⟩

/-! ## C1 — the deferred-value read path (code bug: the settled value is
returned wrapped in the continuation's rest-argument array) -/

/-- C1 (code bug evaluated at the failing input): component `0` reads
promise `7` during render; the read returns `null` (the pending sentinel)
and exactly one re-render is requested when the promise settles — but after
the promise settles with `42`, every subsequent read returns the
one-element array `[42]` (`JSVal.arr (JSVal.num 42)`), not `42` itself,
because the `.then` callback `(...res) => compReg.promises.set(promise, res)`
stores its rest-argument array.  This contradicts the declared API
`async<T>(obj: Promise<T>): T | undefined` and the readme
(`async(this.promise)` is used where the resolved string itself is
expected). -/
theorem getPromiseValue_returns_wrapped_array_after_settlement :
    (getPromiseValue 0 7 emptyState).2 = JSVal.null
    ∧ (resolvePromise 7 (JSVal.num 42) (getPromiseValue 0 7 emptyState).1).rerenders = [0]
    ∧ (getPromiseValue 0 7
        (resolvePromise 7 (JSVal.num 42) (getPromiseValue 0 7 emptyState).1)).2
        = JSVal.arr (JSVal.num 42)
    ∧ (getPromiseValue 0 7
        (resolvePromise 7 (JSVal.num 42) (getPromiseValue 0 7 emptyState).1)).2
        ≠ JSVal.num 42
    ∧ (getPromiseValue 0 7
        (resolvePromise 7 (JSVal.num 42) (getPromiseValue 0 7 emptyState).1)).1.rerenders
        = [0] := by
  decide

/-! ## C3 — the pending sentinel is distinguishable from a settled
`undefined`/`null` on the deferred-value path -/

/-- C3: for every settled value `v` — in particular `undefined` and `null` —
a read of a deferred value before settlement returns the pending sentinel
`null`, while every read after settlement returns the array `arr v`, which
is distinct from the sentinel.  (The distinguishability is a consequence of
the array-wrapping noted at C1: `arr undef` and `arr null` differ from
`null`.) -/
theorem readAsync_settled_undef_null_distinguishable (v : JSVal) :
    (getPromiseValue 0 7 emptyState).2 = JSVal.null
    ∧ (getPromiseValue 0 7 (resolvePromise 7 v (getPromiseValue 0 7 emptyState).1)).2
        = JSVal.arr v
    ∧ (getPromiseValue 0 7 (resolvePromise 7 v (getPromiseValue 0 7 emptyState).1)).2
        ≠ (getPromiseValue 0 7 emptyState).2 := by
  refine ⟨rfl, rfl, ?_⟩
  show JSVal.arr v ≠ JSVal.null
  simp

/-! ## C10 — destroy unconditionally overwrites the hook slots with the
install-time snapshot -/

/-- C10: whatever the component's hook slots hold at destruction time,
`destroy` writes back exactly the install-time snapshot — so any hook
assigned between installation and destruction is discarded, and a slot
whose snapshot was absent is set to the absent value. -/
theorem destroy_overwrites_hooks_with_snapshot {s : SysState} {c gen : Nat}
    {compReg : ComponentRegistration}
    (h : alistGet c s.componentRegistrations = some (gen, compReg)) :
    alistGet c (destroy c s).components =
      some { connectedCallback := compReg.origConnectedCallback
             disconnectedCallback := compReg.origDisconnectedCallback
             render := compReg.origRender } := by
  simp [destroy, h, alistGet_set_self]

/-- A registration whose snapshot has no connected and no disconnected
callback and an author render hook `orig 1`; used to exercise C10. -/
def regW : ComponentRegistration :=
  { promises := [], observables := [], recentlyUsedObservables := [],
    origConnectedCallback := none, origDisconnectedCallback := none,
    origRender := some (HookVal.orig 1) }

/-- A state in which component `0` is registered with snapshot `regW` but a
third party has since assigned different hooks (`orig 4`, absent, `orig 9`)
to the component's slots. -/
def stW : SysState :=
  { components := [(0, { connectedCallback := some (HookVal.orig 4),
                          disconnectedCallback := none,
                          render := some (HookVal.orig 9) })],
    componentRegistrations := [(0, (0, regW))],
    subs := [], pendingThens := [], nextSub := 0, nextGen := 1,
    rerenders := [], errors := 0 }

/-- Witness for C10: destroying `stW` discards the externally assigned
hooks `orig 4` / `orig 9` and sets the slots to the snapshot — the absent
snapshot entries become absent slots. -/
theorem destroy_overwrites_hooks_with_snapshot_witness :
    alistGet 0 stW.componentRegistrations = some (0, regW)
    ∧ alistGet 0 (destroy 0 stW).components =
        some { connectedCallback := none, disconnectedCallback := none,
               render := some (HookVal.orig 1) } :=
  ⟨by decide, @destroy_overwrites_hooks_with_snapshot stW 0 0 regW (by decide)⟩

/-! ## C6 — uninstall semantics and idempotence -/

/-- The registration of a component that read observable `3` in its last
render pass and has received one emission (`9`); the state `stX` below is
the reachable state after exactly that history. -/
def regX : ComponentRegistration :=
  { promises := [],
    observables := [(3, { subscription := 0, result := some (JSVal.num 9) })],
    recentlyUsedObservables := [3],
    origConnectedCallback := none, origDisconnectedCallback := none,
    origRender := some (HookVal.orig 1) }

/-- A reachable state: component `0` (author render hook `orig 1`) was
initialised, read observable `3` during its render pass, and observable `3`
has emitted `9` once. -/
def stX : SysState :=
  { components := [(0, { connectedCallback := some (HookVal.wrappedConnected 0),
                          disconnectedCallback := some (HookVal.wrappedDisconnected 0),
                          render := some (HookVal.wrappedRender 0) })],
    componentRegistrations := [(0, (0, regX))],
    subs := [{ id := 0, obsId := 3, comp := 0, active := true }],
    pendingThens := [], nextSub := 1, nextGen := 1, rerenders := [0], errors := 0 }

/-- C6: destroying a registered component unsubscribes every subscription
held by one of its stream bindings, removes its ComponentRegistration from
the store, and restores the three hook slots to the exact install-time
snapshot; installing on an already-installed component and destroying an
absent binding are no-ops; and both operations preserve the
one-registration-per-component invariant (no duplicate keys in the store). -/
theorem destroy_uninstalls_and_lifecycle_idempotent
    (s t : SysState) (c d gen : Nat) (compReg : ComponentRegistration) :
    (alistGet c s.componentRegistrations = some (gen, compReg) →
      (∀ sub' ∈ (destroy c s).subs,
          (∃ e ∈ compReg.observables, e.2.subscription = sub'.id) → sub'.active = false)
      ∧ ((s.componentRegistrations.map Prod.fst).Nodup →
          alistGet c (destroy c s).componentRegistrations = none)
      ∧ alistGet c (destroy c s).components =
          some { connectedCallback := compReg.origConnectedCallback
                 disconnectedCallback := compReg.origDisconnectedCallback
                 render := compReg.origRender })
    ∧ (alistHas d t.componentRegistrations = true → init d t = t)
    ∧ (alistGet d t.componentRegistrations = none → destroy d t = t)
    ∧ ((t.componentRegistrations.map Prod.fst).Nodup →
        ((init d t).componentRegistrations.map Prod.fst).Nodup
        ∧ ((destroy d t).componentRegistrations.map Prod.fst).Nodup) := by
  refine ⟨fun hreg => ⟨?_, ?_, ?_⟩, init_of_registered, fun habs => ?_, fun hnodup => ⟨?_, ?_⟩⟩
  · intro sub' hmem he
    obtain ⟨e, hemem, heq⟩ := he
    refine destroy_deactivates hreg sub' hmem ?_
    rw [List.any_eq_true]
    exact ⟨e, hemem, by simp [heq]⟩
  · intro hnodup
    simp only [destroy, hreg]
    exact alistGet_delete_self hnodup
  · simp [destroy, hreg, alistGet_set_self]
  · simp [destroy, habs]
  · by_cases hhas : alistHas d t.componentRegistrations = true
    · rw [init_of_registered hhas]
      exact hnodup
    · simp only [init, hhas, if_false, Bool.false_eq_true]
      exact alistSet_keys_nodup hnodup d _
  · cases hD : alistGet d t.componentRegistrations with
    | none => simpa [destroy, hD] using hnodup
    | some val =>
      obtain ⟨g', r'⟩ := val
      simp only [destroy, hD]
      exact alistDelete_keys_nodup hnodup d

/-- Witness for C6, at the reachable state `stX`: destroying it deactivates
the subscription of binding `3`, empties the store, restores the hooks;
re-initialising `stX` is a no-op; destroying the empty state is a no-op. -/
theorem destroy_uninstalls_and_lifecycle_idempotent_witness :
    ((∀ sub' ∈ (destroy 0 stX).subs,
        (∃ e ∈ regX.observables, e.2.subscription = sub'.id) → sub'.active = false)
      ∧ alistGet 0 (destroy 0 stX).componentRegistrations = none
      ∧ alistGet 0 (destroy 0 stX).components =
          some { connectedCallback := none, disconnectedCallback := none,
                 render := some (HookVal.orig 1) })
    ∧ init 0 stX = stX
    ∧ destroy 0 emptyState = emptyState
    ∧ ((init 0 stX).componentRegistrations.map Prod.fst).Nodup :=
  ⟨⟨((destroy_uninstalls_and_lifecycle_idempotent stX stX 0 0 0 regX).1 (by decide)).1,
    ((destroy_uninstalls_and_lifecycle_idempotent stX stX 0 0 0 regX).1 (by decide)).2.1
      (by decide),
    ((destroy_uninstalls_and_lifecycle_idempotent stX stX 0 0 0 regX).1 (by decide)).2.2⟩,
   (destroy_uninstalls_and_lifecycle_idempotent stX stX 0 0 0 regX).2.1 (by decide),
   (destroy_uninstalls_and_lifecycle_idempotent stX emptyState 0 0 0 regX).2.2.1 (by decide),
   ((destroy_uninstalls_and_lifecycle_idempotent stX stX 0 0 0 regX).2.2.2 (by decide)).1⟩

/-! ## C2 — late callbacks after destroy -/

/-- C2 counterexample: component `0` reads promise `7` during render, the
binding is then destroyed, and the promise settles afterwards.  The late
continuation — which has no liveness check — still calls
`forceUpdate(component)`: the re-render log grows from `[]` to `[0]` even
though the binding is gone.  This refutes the claim that a late
deferred-value continuation for a destroyed binding requests no re-render. -/
theorem late_then_after_destroy_requests_rerender :
    (destroy 0 (getPromiseValue 0 7 emptyState).1).componentRegistrations = []
    ∧ (destroy 0 (getPromiseValue 0 7 emptyState).1).rerenders = []
    ∧ (resolvePromise 7 (JSVal.str "late")
        (destroy 0 (getPromiseValue 0 7 emptyState).1)).rerenders = [0] := by
  decide

theorem foldRunThen_unregistered (w : JSVal) (L : List PendingThen) (t : SysState)
    (h : ∀ pt ∈ L, alistGet pt.comp t.componentRegistrations = none) :
    (L.foldl (fun acc pt => runThen pt w acc) t).componentRegistrations
        = t.componentRegistrations
    ∧ (L.foldl (fun acc pt => runThen pt w acc) t).rerenders
        = t.rerenders ++ L.map (fun pt => pt.comp) := by
  induction L generalizing t with
  | nil => simp
  | cons hd tl ih =>
    have hhd := h hd (by simp)
    have hstep : runThen hd w t = { t with rerenders := t.rerenders ++ [hd.comp] } := by
      simp [runThen, hhd, forceUpdate]
    simp only [List.foldl_cons, hstep]
    have hrec := ih { t with rerenders := t.rerenders ++ [hd.comp] }
      (fun pt hpt => h pt (by simp [hpt]))
    refine ⟨hrec.1, ?_⟩
    rw [hrec.2]
    simp

/-- C2 amended: after a ComponentBinding is destroyed, a late stream
emission is a no-op — destroy unsubscribes every stream binding's
subscription, so if every subscription on the stream belonged to the
destroyed binding, the emission changes nothing (no state mutation, no
re-render).  A late deferred-value continuation, however, is not guarded:
it leaves the registration store unchanged (it writes only into the
orphaned registration object), but it still requests one re-render of the
component per attached continuation. -/
theorem destroy_silences_streams_but_late_then_rerenders
    (s : SysState) (c o p gen : Nat) (compReg : ComponentRegistration) (v w : JSVal)
    (hreg : alistGet c s.componentRegistrations = some (gen, compReg))
    (hnodup : (s.componentRegistrations.map Prod.fst).Nodup) :
    ((∀ sub ∈ s.subs, sub.obsId = o →
        compReg.observables.any (fun e => e.2.subscription = sub.id) = true) →
      emit o v (destroy c s) = destroy c s)
    ∧ ((∀ pt ∈ s.pendingThens, pt.promiseId = p → pt.comp = c) →
      (resolvePromise p w (destroy c s)).componentRegistrations
          = (destroy c s).componentRegistrations
      ∧ (resolvePromise p w (destroy c s)).rerenders
          = (destroy c s).rerenders
              ++ ((destroy c s).pendingThens.filter
                    (fun pt => pt.promiseId = p)).map (fun pt => pt.comp)) := by
  have hgone : alistGet c (destroy c s).componentRegistrations = none := by
    simp only [destroy, hreg]
    exact alistGet_delete_self hnodup
  constructor
  · intro hsubs
    apply emit_of_no_active
    intro sub' hmem hobs
    simp only [destroy, hreg] at hmem
    rw [List.mem_map] at hmem
    obtain ⟨sub, hsub, rfl⟩ := hmem
    by_cases hcond : compReg.observables.any (fun e => e.2.subscription = sub.id) = true
    · simp [hcond]
    · rw [if_neg hcond] at hobs ⊢
      exact absurd (hsubs sub hsub hobs) hcond
  · intro hpend
    have hpend' : ∀ pt ∈ (destroy c s).pendingThens, pt.promiseId = p → pt.comp = c := by
      intro pt hpt
      refine hpend pt ?_
      simp only [destroy, hreg] at hpt
      exact hpt
    unfold resolvePromise
    have hfold := foldRunThen_unregistered w
      ((destroy c s).pendingThens.filter (fun pt => decide (pt.promiseId = p)))
      { destroy c s with pendingThens :=
          (destroy c s).pendingThens.filter (fun pt => decide (pt.promiseId ≠ p)) }
      (fun pt hpt => by
        rw [List.mem_filter] at hpt
        have hc : pt.comp = c := hpend' pt hpt.1 (by simpa using hpt.2)
        rw [hc]
        exact hgone)
    exact ⟨hfold.1, hfold.2⟩

/-- The registration of a component that has read promise `7` (still
pending) and observable `3` (no emission yet); `stY` below is the reachable
state after that history. -/
def regY : ComponentRegistration :=
  { promises := [(7, JSVal.null)],
    observables := [(3, { subscription := 0, result := none })],
    recentlyUsedObservables := [3],
    origConnectedCallback := none, origDisconnectedCallback := none,
    origRender := none }

/-- A reachable state: component `0` read promise `7` and observable `3`
during its render pass; the promise is pending and the observable has not
emitted. -/
def stY : SysState :=
  { components := [(0, { connectedCallback := some (HookVal.wrappedConnected 0),
                          disconnectedCallback := some (HookVal.wrappedDisconnected 0),
                          render := some (HookVal.wrappedRender 0) })],
    componentRegistrations := [(0, (0, regY))],
    subs := [{ id := 0, obsId := 3, comp := 0, active := true }],
    pendingThens := [{ promiseId := 7, comp := 0, gen := 0 }],
    nextSub := 1, nextGen := 1, rerenders := [], errors := 0 }

/-- Witness for the amended C2 at the reachable state `stY`: after destroy,
an emission of observable `3` changes nothing, while the late settlement of
promise `7` leaves the store unchanged but appends a re-render request. -/
theorem destroy_silences_streams_but_late_then_rerenders_witness :
    emit 3 (JSVal.num 5) (destroy 0 stY) = destroy 0 stY
    ∧ (resolvePromise 7 (JSVal.num 8) (destroy 0 stY)).componentRegistrations
        = (destroy 0 stY).componentRegistrations
    ∧ (resolvePromise 7 (JSVal.num 8) (destroy 0 stY)).rerenders
        = (destroy 0 stY).rerenders
            ++ ((destroy 0 stY).pendingThens.filter
                  (fun pt => pt.promiseId = 7)).map (fun pt => pt.comp) :=
  ⟨(destroy_silences_streams_but_late_then_rerenders stY 0 3 7 0 regY
      (JSVal.num 5) (JSVal.num 8) (by decide) (by decide)).1 (by decide),
   ((destroy_silences_streams_but_late_then_rerenders stY 0 3 7 0 regY
      (JSVal.num 5) (JSVal.num 8) (by decide) (by decide)).2 (by decide)).1,
   ((destroy_silences_streams_but_late_then_rerenders stY 0 3 7 0 regY
      (JSVal.num 5) (JSVal.num 8) (by decide) (by decide)).2 (by decide)).2⟩


/-! ## C7 — stream reads: cached value, one re-render per emission,
subscribe at most once -/

/-- The updated system state asserted by the emission part of the C7
theorem: the binding's record for `o` now caches `v` and exactly one
re-render request for `c` was appended. -/
def emitResult (s : SysState) (c o gen : Nat) (compReg : ComponentRegistration)
    (r : ObservableRegistration) (v : JSVal) : SysState :=
  { s with
    componentRegistrations :=
      alistSet c
        (gen, { compReg with
                  observables := alistSet o { r with result := some v } compReg.observables })
        s.componentRegistrations
    rerenders := s.rerenders ++ [c] }

/-- C7: while a binding for stream `o` exists, (i) a read returns exactly
the cached value — `undefined` (the unresolved marker) until the first
emission, the most recent emission after — and performs no new
subscription (`subs` and the fresh-subscription counter are untouched);
(ii) the first read of an unbound stream that emits nothing synchronously
returns the unresolved marker; (iii) an emission on a stream whose only
subscription is the binding's own active one stores the emitted value in
the binding and appends exactly one re-render request. -/
theorem readAsync_stream_cache_semantics
    (env : Env) (s : SysState) (c o gen subId : Nat)
    (compReg : ComponentRegistration) (r : ObservableRegistration) (v : JSVal)
    (hreg : alistGet c s.componentRegistrations = some (gen, compReg)) :
    (alistGet o compReg.observables = some r →
      (getObservableValue env c o s).2 = r.result.getD JSVal.undef
      ∧ (getObservableValue env c o s).1.subs = s.subs
      ∧ (getObservableValue env c o s).1.nextSub = s.nextSub)
    ∧ (alistGet o compReg.observables = none → env.obsSyncEmits o = [] →
      (getObservableValue env c o s).2 = JSVal.undef)
    ∧ (alistGet o compReg.observables = some r → r.subscription = subId →
       s.subs.filter (fun sub => sub.obsId = o) = [⟨subId, o, c, true⟩] →
        emit o v s = emitResult s c o gen compReg r v) := by
  refine ⟨fun hentry => ?_, fun hnone hsync => ?_, fun hentry hsub hfilter => ?_⟩
  · simp [getObservableValue, getComponentRegistration_of_registered hreg,
      alistHas_of_get hentry, hentry]
  · have hhas : alistHas o compReg.observables = false := (alistHas_false_iff _).2 hnone
    simp [getObservableValue, getComponentRegistration_of_registered hreg, hhas, hsync,
      alistGet_set_self]
  · unfold emit
    rw [hfilter]
    simp [deliverEmission, emitResult, hreg, hentry, hsub, forceUpdate]

/-- Witness for C7 at the reachable states `stX` (bound stream `3`, last
emission `9`) and `stY` (bound stream `3`, no emission yet; stream `4`
unbound): reads return the cache, no re-subscription happens, and an
emission stores the value with exactly one re-render request. -/
theorem readAsync_stream_cache_semantics_witness :
    ((getObservableValue env0 0 3 stX).2 = JSVal.num 9
      ∧ (getObservableValue env0 0 3 stX).1.subs = stX.subs
      ∧ (getObservableValue env0 0 3 stX).1.nextSub = stX.nextSub)
    ∧ (getObservableValue env0 0 4 stY).2 = JSVal.undef
    ∧ emit 3 (JSVal.num 5) stY = emitResult stY 0 3 0 regY ⟨0, none⟩ (JSVal.num 5) :=
  ⟨(readAsync_stream_cache_semantics env0 stX 0 3 0 0 regX ⟨0, some (JSVal.num 9)⟩
      (JSVal.num 5) (by decide)).1 (by decide),
   (readAsync_stream_cache_semantics env0 stY 0 4 0 0 regY ⟨0, none⟩
      (JSVal.num 5) (by decide)).2.1 (by decide) (by decide),
   (readAsync_stream_cache_semantics env0 stY 0 3 0 0 regY ⟨0, none⟩
      (JSVal.num 5) (by decide)).2.2 (by decide) (by decide) (by decide)⟩

/-! ## C8 — a synchronous first emission is not lost -/

/-- An environment in which observable `5` emits `1` synchronously upon
subscription. -/
def envA : Env :=
  { renderBehavior := fun _ => ([], JSVal.undef)
    obsSyncEmits := fun o => if o = 5 then [JSVal.num 1] else [] }

/-- The registration contents asserted by the C8 theorem: the read pushed
`o` onto the recently-used list and stored a record holding both the fresh
cancel handle and the synchronously emitted value. -/
def syncReadReg (compReg : ComponentRegistration) (o subId : Nat) (v : JSVal) :
    ComponentRegistration :=
  { compReg with
    recentlyUsedObservables := compReg.recentlyUsedObservables ++ [o]
    observables := alistSet o { subscription := subId, result := some v } compReg.observables }

/-- C8: if a stream emits synchronously while `subscribe` is still running,
the very first read of that stream nevertheless returns the (last such)
immediately-emitted value — not the unresolved marker — because the
placeholder record stored before subscribing catches the emission; the
stored binding record holds both the cancel handle (which names the
freshly created subscription) and that value, and each synchronous
emission requested a re-render. -/
theorem first_read_keeps_synchronous_emission
    (env : Env) (s : SysState) (c o gen : Nat)
    (compReg : ComponentRegistration) (vs : List JSVal) (v : JSVal)
    (hreg : alistGet c s.componentRegistrations = some (gen, compReg))
    (hnew : alistGet o compReg.observables = none)
    (hemits : env.obsSyncEmits o = vs ++ [v]) :
    (getObservableValue env c o s).2 = v
    ∧ alistGet c ((getObservableValue env c o s).1).componentRegistrations
        = some (gen, syncReadReg compReg o s.nextSub v)
    ∧ ((getObservableValue env c o s).1).subs = s.subs ++ [⟨s.nextSub, o, c, true⟩]
    ∧ ((getObservableValue env c o s).1).rerenders
        = s.rerenders ++ (vs ++ [v]).map (fun _ => c) := by
  have hhas : alistHas o compReg.observables = false := (alistHas_false_iff _).2 hnew
  have hfold : (vs ++ [v]).foldl (fun _ x => some x) (none : Option JSVal) = some v := by
    simp [List.foldl_append]
  simp [getObservableValue, getComponentRegistration_of_registered hreg, hhas, hemits,
    hfold, alistGet_set_self, syncReadReg]

/-- Witness for C8 at the reachable state `stY`: the first read of stream
`5`, which emits `1` synchronously during subscription, returns `1`, and
the stored record holds the fresh cancel handle `1` together with `1`. -/
theorem first_read_keeps_synchronous_emission_witness :
    (getObservableValue envA 0 5 stY).2 = JSVal.num 1
    ∧ alistGet 0 ((getObservableValue envA 0 5 stY).1).componentRegistrations
        = some (0, syncReadReg regY 5 stY.nextSub (JSVal.num 1))
    ∧ ((getObservableValue envA 0 5 stY).1).subs = stY.subs ++ [⟨stY.nextSub, 5, 0, true⟩]
    ∧ ((getObservableValue envA 0 5 stY).1).rerenders
        = stY.rerenders ++ ([] ++ [JSVal.num 1]).map (fun _ => 0) :=
  first_read_keeps_synchronous_emission envA stY 0 5 0 regY [] (JSVal.num 1)
    (by decide) (by decide) (by decide)

/-! ## Machinery for the render-pass claims (C4, C5) -/

theorem alistSet_eq_of_get {α : Type} {k : Nat} {v : α} {l : List (Nat × α)}
    (h : alistGet k l = some v) : alistSet k v l = l := by
  induction l with
  | nil => simp [alistGet] at h
  | cons hd tl ih =>
    simp only [alistGet] at h
    by_cases h' : k = hd.1
    · rw [if_pos h'] at h
      obtain rfl := Option.some_injective _ h
      cases hd
      simp_all [alistSet]
    · rw [if_neg h'] at h
      simp [alistSet, h', ih h]

theorem alistSet_set_self {α : Type} (k : Nat) (v1 v2 : α) (l : List (Nat × α)) :
    alistSet k v2 (alistSet k v1 l) = alistSet k v2 l := by
  induction l with
  | nil => simp [alistSet]
  | cons hd tl ih =>
    by_cases h : k = hd.1
    · simp [alistSet, h]
    · simp [alistSet, h, ih]

theorem alistGet_delete_of_none {α : Type} {o : Nat} {l : List (Nat × α)} (k : Nat)
    (h : alistGet o l = none) : alistGet o (alistDelete k l) = none := by
  induction l with
  | nil => rfl
  | cons hd tl ih =>
    simp only [alistGet] at h
    by_cases h' : o = hd.1
    · simp [h'] at h
    · rw [if_neg h'] at h
      by_cases h'' : k = hd.1
      · simp only [alistDelete, if_pos h'']
        exact h
      · simp only [alistDelete, if_neg h'', alistGet, if_neg h']
        exact ih h

theorem mem_deactivateMap {p : SubscriptionRec → Prop} [DecidablePred p]
    {l : List SubscriptionRec} {sub' : SubscriptionRec}
    (h : sub' ∈ l.map (fun sub => if p sub then { sub with active := false } else sub)) :
    ∃ sub ∈ l, sub' = sub ∨ sub' = { sub with active := false } := by
  rw [List.mem_map] at h
  obtain ⟨sub, hsub, heq⟩ := h
  refine ⟨sub, hsub, ?_⟩
  by_cases hp : p sub
  · rw [if_pos hp] at heq
    exact Or.inr heq.symm
  · rw [if_neg hp] at heq
    exact Or.inl heq.symm

theorem deactivateMap_subsOn {p : SubscriptionRec → Prop} [DecidablePred p]
    {l : List SubscriptionRec} {o subId : Nat}
    (h : ∀ sub ∈ l, sub.obsId = o → sub.id = subId) :
    ∀ sub' ∈ l.map (fun sub => if p sub then { sub with active := false } else sub),
      sub'.obsId = o → sub'.id = subId := by
  intro sub' hmem hobs
  obtain ⟨sub, hsub, hcase⟩ := mem_deactivateMap hmem
  rcases hcase with hc | hc
  · subst hc
    exact h sub' hsub hobs
  · subst hc
    exact h sub hsub hobs

theorem deactivateMap_inactive {p : SubscriptionRec → Prop} [DecidablePred p]
    {l : List SubscriptionRec} {o : Nat}
    (h : ∀ sub ∈ l, sub.obsId = o → sub.active = false) :
    ∀ sub' ∈ l.map (fun sub => if p sub then { sub with active := false } else sub),
      sub'.obsId = o → sub'.active = false := by
  intro sub' hmem hobs
  obtain ⟨sub, hsub, hcase⟩ := mem_deactivateMap hmem
  rcases hcase with hc | hc
  · subst hc
    exact h sub' hsub hobs
  · subst hc
    rfl

/-- Effect of one read that is not a stream read (a promise read or an
invalid value) on a registered component: only the `promises` field of the
registration (and the error counter / pending continuations) can change. -/
theorem getAsyncValue_nonstream_step (env : Env) (r : SrcVal) {s : SysState} {c gen : Nat}
    {compReg : ComponentRegistration}
    (hreg : alistGet c s.componentRegistrations = some (gen, compReg))
    (hcase : isPromise r = true ∨ isSubscribable r = false) :
    ∃ promises',
      ((getAsyncValue env c r s).1).componentRegistrations
          = alistSet c (gen, { compReg with promises := promises' }) s.componentRegistrations
      ∧ ((getAsyncValue env c r s).1).subs = s.subs
      ∧ ((getAsyncValue env c r s).1).components = s.components := by
  by_cases hp : isPromise r = true
  · refine ⟨if alistHas r.srcId compReg.promises then compReg.promises
      else alistSet r.srcId JSVal.null compReg.promises, ?_⟩
    by_cases hhas : alistHas r.srcId compReg.promises = true
    · simp [getAsyncValue, hp, getPromiseValue,
        getComponentRegistration_of_registered hreg, hhas, alistSet_eq_of_get hreg]
    · simp only [Bool.not_eq_true] at hhas
      simp [getAsyncValue, hp, getPromiseValue,
        getComponentRegistration_of_registered hreg, hhas]
  · have hs : isSubscribable r = false := by
      rcases hcase with h | h
      · exact absurd h hp
      · exact h
    simp only [Bool.not_eq_true] at hp
    refine ⟨compReg.promises, ?_⟩
    simp [getAsyncValue, hp, hs, alistSet_eq_of_get hreg]

/-- Effect of one stream read on a registered component: the stream is
appended to `recentlyUsedObservables`; the observables map gains an entry
for it (if absent) and keeps every other entry; at most one subscription —
on that very stream — is appended. -/
theorem getAsyncValue_stream_step (env : Env) (r : SrcVal) {s : SysState} {c gen : Nat}
    {compReg : ComponentRegistration}
    (hreg : alistGet c s.componentRegistrations = some (gen, compReg))
    (hp : isPromise r = false) (hs : isSubscribable r = true) :
    ∃ obs' subs2,
      ((getAsyncValue env c r s).1).componentRegistrations
          = alistSet c
              (gen, { compReg with
                        observables := obs'
                        recentlyUsedObservables :=
                          compReg.recentlyUsedObservables ++ [r.srcId] })
              s.componentRegistrations
      ∧ ((getAsyncValue env c r s).1).subs = s.subs ++ subs2
      ∧ (∀ sub ∈ subs2, sub.obsId = r.srcId)
      ∧ alistHas r.srcId obs' = true
      ∧ (∀ o, o ≠ r.srcId → alistGet o obs' = alistGet o compReg.observables)
      ∧ ((compReg.observables.map Prod.fst).Nodup → (obs'.map Prod.fst).Nodup)
      ∧ ((getAsyncValue env c r s).1).components = s.components := by
  by_cases hhas : alistHas r.srcId compReg.observables = true
  · refine ⟨compReg.observables, [], ?_⟩
    simp [getAsyncValue, hp, hs, getObservableValue,
      getComponentRegistration_of_registered hreg, hhas]
  · simp only [Bool.not_eq_true] at hhas
    refine ⟨alistSet r.srcId
        { subscription := s.nextSub,
          result := (env.obsSyncEmits r.srcId).foldl (fun _ v => some v) none }
        compReg.observables,
      [{ id := s.nextSub, obsId := r.srcId, comp := c, active := true }], ?_⟩
    refine ⟨?_, ?_, ?_, ?_, ?_, ?_, ?_⟩
    · simp [getAsyncValue, hp, hs, getObservableValue,
        getComponentRegistration_of_registered hreg, hhas, alistSet_set_self]
    · simp [getAsyncValue, hp, hs, getObservableValue,
        getComponentRegistration_of_registered hreg, hhas]
    · intro sub hsub
      simp only [List.mem_singleton] at hsub
      subst hsub
      rfl
    · simp [alistHas, alistGet_set_self]
    · intro o ho
      exact alistGet_set_ne ho _ _
    · intro hnd
      exact alistSet_keys_nodup hnd _ _
    · simp [getAsyncValue, hp, hs, getObservableValue,
        getComponentRegistration_of_registered hreg, hhas]

/-- Every stream on the recently-used list of this render pass has an entry
in the observables map (reads create the entry at the moment they push the
stream onto the list, and nothing removes entries during the pass). -/
def UsedHaveEntries (compReg : ComponentRegistration) : Prop :=
  ∀ o ∈ compReg.recentlyUsedObservables, alistHas o compReg.observables = true

/-- The invariant maintained across one render pass: the component stays
registered under the same generation with its hook snapshot intact, every
recently-used stream has a bindings entry, and the store keys stay
duplicate-free. -/
def RenderInv (c gen : Nat) (oc od orr : Option HookVal) (s : SysState) : Prop :=
  ∃ compReg', alistGet c s.componentRegistrations = some (gen, compReg')
    ∧ compReg'.origConnectedCallback = oc
    ∧ compReg'.origDisconnectedCallback = od
    ∧ compReg'.origRender = orr
    ∧ UsedHaveEntries compReg'
    ∧ (s.componentRegistrations.map Prod.fst).Nodup

theorem clearRecentlyUsed_RenderInv {s : SysState} {c gen : Nat}
    {compReg : ComponentRegistration}
    (hreg : alistGet c s.componentRegistrations = some (gen, compReg))
    (hnodup : (s.componentRegistrations.map Prod.fst).Nodup) :
    RenderInv c gen compReg.origConnectedCallback compReg.origDisconnectedCallback
      compReg.origRender (clearRecentlyUsed c s) := by
  refine ⟨{ compReg with recentlyUsedObservables := [] }, ?_, rfl, rfl, rfl, ?_, ?_⟩
  · simp [clearRecentlyUsed, hreg, alistGet_set_self]
  · intro o ho
    simp at ho
  · simp only [clearRecentlyUsed, hreg]
    exact alistSet_keys_nodup hnodup _ _

theorem getAsyncValue_RenderInv (env : Env) (r : SrcVal) {s : SysState} {c gen : Nat}
    {oc od orr : Option HookVal}
    (h : RenderInv c gen oc od orr s) :
    RenderInv c gen oc od orr ((getAsyncValue env c r s).1) := by
  obtain ⟨compReg, hreg, h1, h2, h3, hused, hnodup⟩ := h
  by_cases hstream : isPromise r = false ∧ isSubscribable r = true
  · obtain ⟨obs', subs2, hregs, _, _, hhas, hne, _, _⟩ :=
      getAsyncValue_stream_step env r hreg hstream.1 hstream.2
    refine ⟨{ compReg with
        observables := obs'
        recentlyUsedObservables := compReg.recentlyUsedObservables ++ [r.srcId] },
      ?_, h1, h2, h3, ?_, ?_⟩
    · rw [hregs]
      exact alistGet_set_self _ _ _
    · intro o ho
      simp only [List.mem_append, List.mem_singleton] at ho
      rcases ho with ho | rfl
      · by_cases heq : o = r.srcId
        · subst heq
          exact hhas
        · have := hne o heq
          simp only [alistHas] at hused ⊢
          rw [this]
          exact hused o ho
      · exact hhas
    · rw [hregs]
      exact alistSet_keys_nodup hnodup _ _
  · have hcase : isPromise r = true ∨ isSubscribable r = false := by
      by_cases hp : isPromise r = true
      · exact Or.inl hp
      · simp only [Bool.not_eq_true] at hp
        refine Or.inr ?_
        by_cases hsub : isSubscribable r = true
        · exact absurd ⟨hp, hsub⟩ hstream
        · simpa using hsub
    obtain ⟨promises', hregs, _, _⟩ := getAsyncValue_nonstream_step env r hreg hcase
    refine ⟨{ compReg with promises := promises' }, ?_, h1, h2, h3, hused, ?_⟩
    · rw [hregs]
      exact alistGet_set_self _ _ _
    · rw [hregs]
      exact alistSet_keys_nodup hnodup _ _

theorem runReads_cons (env : Env) (c : Nat) (r : SrcVal) (reads : List SrcVal)
    (s : SysState) :
    runReads env c (r :: reads) s = runReads env c reads ((getAsyncValue env c r s).1) :=
  rfl

theorem runReads_RenderInv (env : Env) (reads : List SrcVal) (c gen : Nat)
    (oc od orr : Option HookVal) :
    ∀ s, RenderInv c gen oc od orr s →
      RenderInv c gen oc od orr (runReads env c reads s) := by
  induction reads with
  | nil => exact fun s h => h
  | cons r rest ih =>
    intro s h
    rw [runReads_cons]
    exact ih _ (getAsyncValue_RenderInv env r h)

/-- Folding `unregisterObservable` over keys that are all outside the
recently-used list only shrinks the observables map: the component stays
registered under the same generation, with every recently-used entry (and
every other field) untouched. -/
theorem foldUnreg_keeps (c gen : Nat) :
    ∀ (L : List Nat) (t : SysState) (compReg : ComponentRegistration),
    alistGet c t.componentRegistrations = some (gen, compReg) →
    (∀ k ∈ L, k ∉ compReg.recentlyUsedObservables) →
    ∃ obs',
      (L.foldl (fun acc k => unregisterObservable c k acc)
          t).componentRegistrations
        = alistSet c (gen, { compReg with observables := obs' })
            t.componentRegistrations
      ∧ (∀ o ∈ compReg.recentlyUsedObservables,
          alistGet o obs' = alistGet o compReg.observables)
      ∧ (L.foldl (fun acc k => unregisterObservable c k acc) t).components
          = t.components := by
  intro L
  induction L with
  | nil =>
    intro t compReg hreg _
    refine ⟨compReg.observables, ?_, fun o _ => rfl, rfl⟩
    simp only [List.foldl_nil]
    exact (alistSet_eq_of_get hreg).symm
  | cons k L' ih =>
    intro t compReg hreg hmem
    have hstepR : (unregisterObservable c k t).componentRegistrations
        = alistSet c (gen, { compReg with
            observables := alistDelete k compReg.observables })
            t.componentRegistrations := by
      simp [unregisterObservable, hreg]
    have hstepC : (unregisterObservable c k t).components = t.components := by
      simp [unregisterObservable, hreg]
    have hreg1 : alistGet c (unregisterObservable c k t).componentRegistrations
        = some (gen, { compReg with observables := alistDelete k compReg.observables }) := by
      rw [hstepR]
      exact alistGet_set_self _ _ _
    obtain ⟨obs'', h1, h2, h3⟩ := ih (unregisterObservable c k t)
      { compReg with observables := alistDelete k compReg.observables }
      hreg1 (fun k' hk' => hmem k' (by simp [hk']))
    refine ⟨obs'', ?_, ?_, ?_⟩
    · show (L'.foldl (fun acc k => unregisterObservable c k acc)
          (unregisterObservable c k t)).componentRegistrations = _
      rw [h1, hstepR, alistSet_set_self]
    · intro o ho
      have hne : o ≠ k := fun he => hmem k (by simp) (he ▸ ho)
      have := h2 o ho
      rw [this]
      exact alistGet_delete_ne hne _
    · show (L'.foldl (fun acc k => unregisterObservable c k acc)
          (unregisterObservable c k t)).components = _
      rw [h3, hstepC]

/-! ## C4 — the wrapped render hook -/

/-- C4 counterexample: initialise a component with no original render hook
(possible through the wrapped connected callback) and invoke the wrapped
render hook.  It is registered, has no stream bindings and no deferred
bindings, so the claim requires the binding to be destroyed before the
wrapped render call returns — but the code's early `return` keeps the
registration installed and returns `undefined` without clearing, reaping or
destroying anything. -/
theorem wrappedRender_without_orig_render_keeps_binding :
    alistHas 0 (init 0 emptyState).componentRegistrations = true
    ∧ (init 0 emptyState).componentRegistrations
        = [(0, (0, { promises := [], observables := [], recentlyUsedObservables := [],
                     origConnectedCallback := none, origDisconnectedCallback := none,
                     origRender := none }))]
    ∧ wrappedRender env0 0 (init 0 emptyState) = (init 0 emptyState, JSVal.undef)
    ∧ alistHas 0 ((wrappedRender env0 0 (init 0 emptyState)).1).componentRegistrations
        = true := by
  decide

/-- C4 amended: when the original render hook is present, the wrapped
render hook clears `recentlyUsedObservables`, invokes the original render
hook (whose reads rebuild the list), runs the reaper over the result,
destroys the binding — restoring the snapshot hooks — if afterwards no
stream bindings and no deferred bindings remain, and returns the captured
render result unchanged.  When the original render hook is absent, the
wrapped render hook instead returns `undefined` immediately: nothing is
cleared or reaped and the binding is not destroyed. -/
theorem wrappedRender_sequence_amended
    (env : Env) (s : SysState) (c gen n : Nat) (compReg : ComponentRegistration)
    (hreg : alistGet c s.componentRegistrations = some (gen, compReg))
    (hnodup : (s.componentRegistrations.map Prod.fst).Nodup) :
    (compReg.origRender = none → wrappedRender env c s = (s, JSVal.undef))
    ∧ (compReg.origRender = some (HookVal.orig n) →
        wrappedRender env c s
          = (destroyIfUnused c (reapUnused c (runReads env c
              (env.renderBehavior n).1 (clearRecentlyUsed c s))),
             (env.renderBehavior n).2)
        ∧ (∀ gen3 compReg3,
            alistGet c (reapUnused c (runReads env c (env.renderBehavior n).1
                (clearRecentlyUsed c s))).componentRegistrations
              = some (gen3, compReg3) →
            compReg3.observables = [] → compReg3.promises = [] →
              alistHas c ((wrappedRender env c s).1).componentRegistrations = false
              ∧ alistGet c ((wrappedRender env c s).1).components
                  = some { connectedCallback := compReg.origConnectedCallback
                           disconnectedCallback := compReg.origDisconnectedCallback
                           render := compReg.origRender })) := by
  constructor
  · intro hnone
    simp [wrappedRender, hreg, hnone]
  · intro horig
    have hmain : wrappedRender env c s
        = (destroyIfUnused c (reapUnused c (runReads env c
            (env.renderBehavior n).1 (clearRecentlyUsed c s))),
           (env.renderBehavior n).2) := by
      simp [wrappedRender, hreg, horig, origRenderBehavior]
    refine ⟨hmain, ?_⟩
    intro gen3 compReg3 hlook hobs hprom
    obtain ⟨compReg2, hreg2, e1, e2, e3, hused2, hnodup2⟩ :=
      runReads_RenderInv env (env.renderBehavior n).1 c gen
        compReg.origConnectedCallback compReg.origDisconnectedCallback
        compReg.origRender (clearRecentlyUsed c s)
        (clearRecentlyUsed_RenderInv hreg hnodup)
    have hreap : reapUnused c (runReads env c (env.renderBehavior n).1
          (clearRecentlyUsed c s))
        = ((compReg2.observables.map Prod.fst).filter
              (fun o => !compReg2.recentlyUsedObservables.contains o)).foldl
            (fun acc o => unregisterObservable c o acc)
            (runReads env c (env.renderBehavior n).1 (clearRecentlyUsed c s)) := by
      simp only [reapUnused, hreg2]
    have hfilt : ∀ k ∈ (compReg2.observables.map Prod.fst).filter
        (fun o => !compReg2.recentlyUsedObservables.contains o),
        k ∉ compReg2.recentlyUsedObservables := by
      intro k hk
      rw [List.mem_filter] at hk
      simpa using hk.2
    obtain ⟨obs3, hE3, hpres, _⟩ := foldUnreg_keeps c gen
      ((compReg2.observables.map Prod.fst).filter
        (fun o => !compReg2.recentlyUsedObservables.contains o))
      (runReads env c (env.renderBehavior n).1 (clearRecentlyUsed c s))
      compReg2 hreg2 hfilt
    have hreg3 : alistGet c (reapUnused c (runReads env c (env.renderBehavior n).1
          (clearRecentlyUsed c s))).componentRegistrations
        = some (gen, { compReg2 with observables := obs3 }) := by
      rw [hreap]
      rw [hE3]
      exact alistGet_set_self _ _ _
    have hnodup3 : ((reapUnused c (runReads env c (env.renderBehavior n).1
          (clearRecentlyUsed c s))).componentRegistrations.map Prod.fst).Nodup := by
      rw [hreap, hE3]
      exact alistSet_keys_nodup hnodup2 _ _
    have hinj := hreg3.symm.trans hlook
    simp only [Option.some.injEq, Prod.mk.injEq] at hinj
    obtain ⟨rfl, rfl⟩ := hinj
    have hobs3 : obs3 = [] := hobs
    have hru2 : compReg2.recentlyUsedObservables = [] := by
      rw [List.eq_nil_iff_forall_not_mem]
      intro o ho
      have hp := hpres o ho
      rw [hobs3] at hp
      have hu := hused2 o ho
      rw [alistHas] at hu
      rw [← hp] at hu
      simp [alistGet] at hu
    have hprom2 : compReg2.promises = [] := hprom
    have hdif : destroyIfUnused c (reapUnused c (runReads env c
          (env.renderBehavior n).1 (clearRecentlyUsed c s)))
        = destroy c (reapUnused c (runReads env c
          (env.renderBehavior n).1 (clearRecentlyUsed c s))) := by
      simp [destroyIfUnused, hreg3, hru2, hprom2]
    have hgone : alistGet c (destroy c (reapUnused c (runReads env c
          (env.renderBehavior n).1
          (clearRecentlyUsed c s)))).componentRegistrations = none := by
      simp only [destroy, hreg3]
      exact alistGet_delete_self hnodup3
    constructor
    · rw [hmain]
      simp only [hdif]
      rw [alistHas_false_iff]
      exact hgone
    · rw [hmain]
      simp only [hdif]
      simp only [destroy, hreg3]
      rw [alistGet_set_self]
      simp [e1, e2, e3]

/-- The registration created by `init` for a component with no hooks. -/
def emptyReg : ComponentRegistration :=
  { promises := [], observables := [], recentlyUsedObservables := [],
    origConnectedCallback := none, origDisconnectedCallback := none,
    origRender := none }

/-- An environment whose render bodies read nothing and return the string
`"r2"`. -/
def envC : Env :=
  { renderBehavior := fun _ => ([], JSVal.str "r2")
    obsSyncEmits := fun _ => [] }

/-- The state right after initialising component `0`, whose only original
hook is the author render function `orig 1`. -/
def stV : SysState :=
  init 0 { emptyState with
    components := [(0, { connectedCallback := none, disconnectedCallback := none,
                          render := some (HookVal.orig 1) })] }

/-- The snapshot registration stored inside `stV`. -/
def regV : ComponentRegistration :=
  { promises := [], observables := [], recentlyUsedObservables := [],
    origConnectedCallback := none, origDisconnectedCallback := none,
    origRender := some (HookVal.orig 1) }

/-- Witness for the amended C4: with no original render hook the wrapped
render is a no-op returning `undefined`; with an original render hook that
reads nothing, the full sequence runs, the binding is destroyed (no stream
and no deferred bindings remained) and the hooks are restored. -/
theorem wrappedRender_sequence_amended_witness :
    wrappedRender env0 0 (init 0 emptyState) = (init 0 emptyState, JSVal.undef)
    ∧ wrappedRender envC 0 stV
        = (destroyIfUnused 0 (reapUnused 0 (runReads envC 0
            (envC.renderBehavior 1).1 (clearRecentlyUsed 0 stV))),
           (envC.renderBehavior 1).2)
    ∧ alistHas 0 ((wrappedRender envC 0 stV).1).componentRegistrations = false
    ∧ alistGet 0 ((wrappedRender envC 0 stV).1).components
        = some { connectedCallback := none, disconnectedCallback := none,
                 render := some (HookVal.orig 1) } :=
  ⟨(wrappedRender_sequence_amended env0 (init 0 emptyState) 0 0 0 emptyReg
      (by decide) (by decide)).1 (by decide),
   ((wrappedRender_sequence_amended envC stV 0 0 1 regV
      (by decide) (by decide)).2 (by decide)).1,
   (((wrappedRender_sequence_amended envC stV 0 0 1 regV
      (by decide) (by decide)).2 (by decide)).2 0 regV
      (by decide) (by decide) (by decide)).1,
   (((wrappedRender_sequence_amended envC stV 0 0 1 regV
      (by decide) (by decide)).2 (by decide)).2 0 regV
      (by decide) (by decide) (by decide)).2⟩

/-! ## Machinery for C5 — reaping a stream not read in the current pass -/

/-- Set-up for the reaper concerning stream `o` of component `c`: the
component is registered (same generation) with an entry for `o` that holds
the subscription `r0.subscription`; `o` was not read during the current
pass; the maps are duplicate-free; and every subscription on `o` is the
binding's own. -/
def ReapReady (c o gen : Nat) (r0 : ObservableRegistration) (s : SysState) : Prop :=
  ∃ compReg, alistGet c s.componentRegistrations = some (gen, compReg)
    ∧ alistGet o compReg.observables = some r0
    ∧ o ∉ compReg.recentlyUsedObservables
    ∧ (compReg.observables.map Prod.fst).Nodup
    ∧ (∀ sub ∈ s.subs, sub.obsId = o → sub.id = r0.subscription)
    ∧ (s.componentRegistrations.map Prod.fst).Nodup

theorem clearRecentlyUsed_ReapReady {s : SysState} {c o gen : Nat}
    {compReg : ComponentRegistration} {r0 : ObservableRegistration}
    (hreg : alistGet c s.componentRegistrations = some (gen, compReg))
    (hentry : alistGet o compReg.observables = some r0)
    (hobsnodup : (compReg.observables.map Prod.fst).Nodup)
    (hsubs : ∀ sub ∈ s.subs, sub.obsId = o → sub.id = r0.subscription)
    (hnodup : (s.componentRegistrations.map Prod.fst).Nodup) :
    ReapReady c o gen r0 (clearRecentlyUsed c s) := by
  refine ⟨{ compReg with recentlyUsedObservables := [] }, ?_, hentry, ?_, hobsnodup,
    ?_, ?_⟩
  · simp [clearRecentlyUsed, hreg, alistGet_set_self]
  · simp
  · intro sub hmem hobs
    have hsubsEq : (clearRecentlyUsed c s).subs = s.subs := by
      simp [clearRecentlyUsed, hreg]
    rw [hsubsEq] at hmem
    exact hsubs sub hmem hobs
  · simp only [clearRecentlyUsed, hreg]
    exact alistSet_keys_nodup hnodup _ _

theorem getAsyncValue_ReapReady (env : Env) (r : SrcVal) {s : SysState}
    {c o gen : Nat} {r0 : ObservableRegistration}
    (h : ReapReady c o gen r0 s)
    (hno : isPromise r = false → isSubscribable r = true → r.srcId ≠ o) :
    ReapReady c o gen r0 ((getAsyncValue env c r s).1) := by
  obtain ⟨compReg, hreg, hentry, hnotused, hobsnd, hsubs, hnodup⟩ := h
  by_cases hstream : isPromise r = false ∧ isSubscribable r = true
  · have hso : r.srcId ≠ o := hno hstream.1 hstream.2
    obtain ⟨obs', subs2, hregs, hsubs2, hobs2, _, hne, hnd, _⟩ :=
      getAsyncValue_stream_step env r hreg hstream.1 hstream.2
    refine ⟨{ compReg with
        observables := obs'
        recentlyUsedObservables := compReg.recentlyUsedObservables ++ [r.srcId] },
      ?_, ?_, ?_, hnd hobsnd, ?_, ?_⟩
    · rw [hregs]
      exact alistGet_set_self _ _ _
    · show alistGet o obs' = some r0
      rw [hne o (fun he => hso he.symm)]
      exact hentry
    · show o ∉ compReg.recentlyUsedObservables ++ [r.srcId]
      simp only [List.mem_append, List.mem_singleton]
      rintro (hm | hm)
      · exact hnotused hm
      · exact hso hm.symm
    · intro sub hmem hobs
      rw [hsubs2] at hmem
      rw [List.mem_append] at hmem
      rcases hmem with hmem | hmem
      · exact hsubs sub hmem hobs
      · exact absurd (hobs ▸ hobs2 sub hmem) (fun he => hso he.symm)
    · rw [hregs]
      exact alistSet_keys_nodup hnodup _ _
  · have hcase : isPromise r = true ∨ isSubscribable r = false := by
      by_cases hp : isPromise r = true
      · exact Or.inl hp
      · simp only [Bool.not_eq_true] at hp
        refine Or.inr ?_
        by_cases hsub : isSubscribable r = true
        · exact absurd ⟨hp, hsub⟩ hstream
        · simpa using hsub
    obtain ⟨promises', hregs, hsubs', _⟩ := getAsyncValue_nonstream_step env r hreg hcase
    refine ⟨{ compReg with promises := promises' }, ?_, hentry, hnotused, hobsnd, ?_, ?_⟩
    · rw [hregs]
      exact alistGet_set_self _ _ _
    · rw [hsubs']
      exact hsubs
    · rw [hregs]
      exact alistSet_keys_nodup hnodup _ _

theorem runReads_ReapReady (env : Env) (reads : List SrcVal) {c o gen : Nat}
    {r0 : ObservableRegistration}
    (hno : ∀ rd ∈ reads, isPromise rd = false → isSubscribable rd = true → rd.srcId ≠ o) :
    ∀ s, ReapReady c o gen r0 s → ReapReady c o gen r0 (runReads env c reads s) := by
  induction reads with
  | nil => exact fun s h => h
  | cons r rest ih =>
    intro s h
    rw [runReads_cons]
    exact ih (fun rd hrd => hno rd (by simp [hrd])) _
      (getAsyncValue_ReapReady env r h (hno r (by simp)))

/-- Field-level description of one `unregisterObservable` call on a
registered component: the entry is deleted; the subscriptions are either
untouched or some subscription id is deactivated; components are untouched. -/
theorem unregister_fields (c k : Nat) (t : SysState) {g' : Nat}
    {cr' : ComponentRegistration}
    (hget : alistGet c t.componentRegistrations = some (g', cr')) :
    (unregisterObservable c k t).componentRegistrations
      = alistSet c (g', { cr' with observables := alistDelete k cr'.observables })
          t.componentRegistrations
    ∧ ((unregisterObservable c k t).subs = t.subs
       ∨ ∃ subId, (unregisterObservable c k t).subs
           = t.subs.map (fun sub =>
               if sub.id = subId then { sub with active := false } else sub))
    ∧ (unregisterObservable c k t).components = t.components := by
  refine ⟨?_, ?_, ?_⟩
  · simp [unregisterObservable, hget]
  · cases hk : alistGet k cr'.observables with
    | none =>
      left
      simp [unregisterObservable, hget, hk]
    | some reg =>
      right
      exact ⟨reg.subscription, by simp [unregisterObservable, hget, hk]⟩
  · simp [unregisterObservable, hget]

/-- Once component `c` has no entry for stream `o` and every subscription
on `o` is inactive, any further sequence of `unregisterObservable` calls
keeps it that way. -/
theorem foldUnreg_stable (c o : Nat) :
    ∀ (L : List Nat) (t : SysState),
    (∀ gen' compReg', alistGet c t.componentRegistrations = some (gen', compReg') →
        alistGet o compReg'.observables = none) →
    (∀ sub ∈ t.subs, sub.obsId = o → sub.active = false) →
    (t.componentRegistrations.map Prod.fst).Nodup →
    (∀ gen' compReg',
        alistGet c ((L.foldl (fun acc k => unregisterObservable c k acc)
            t)).componentRegistrations = some (gen', compReg') →
        alistGet o compReg'.observables = none)
    ∧ (∀ sub ∈ (L.foldl (fun acc k => unregisterObservable c k acc) t).subs,
        sub.obsId = o → sub.active = false)
    ∧ (((L.foldl (fun acc k => unregisterObservable c k acc)
          t)).componentRegistrations.map Prod.fst).Nodup := by
  intro L
  induction L with
  | nil => exact fun t hnone hinact hnodup => ⟨hnone, hinact, hnodup⟩
  | cons k L' ih =>
    intro t hnone hinact hnodup
    cases hget : alistGet c t.componentRegistrations with
    | none =>
      have hid : unregisterObservable c k t = t := by
        simp [unregisterObservable, hget]
      show _ ∧ _ ∧ _
      rw [List.foldl_cons, hid]
      exact ih t hnone hinact hnodup
    | some v =>
      obtain ⟨g', cr'⟩ := v
      obtain ⟨hR, hS, _⟩ := unregister_fields c k t hget
      have hnone1 : ∀ gen' compReg',
          alistGet c (unregisterObservable c k t).componentRegistrations
            = some (gen', compReg') →
          alistGet o compReg'.observables = none := by
        intro gen' compReg' hlook
        rw [hR, alistGet_set_self] at hlook
        simp only [Option.some.injEq, Prod.mk.injEq] at hlook
        obtain ⟨_, rfl⟩ := hlook
        exact alistGet_delete_of_none k (hnone g' cr' hget)
      have hinact1 : ∀ sub ∈ (unregisterObservable c k t).subs,
          sub.obsId = o → sub.active = false := by
        rcases hS with hS | ⟨subId, hS⟩
        · rw [hS]
          exact hinact
        · rw [hS]
          exact deactivateMap_inactive hinact
      have hnodup1 : ((unregisterObservable c k t).componentRegistrations.map
          Prod.fst).Nodup := by
        rw [hR]
        exact alistSet_keys_nodup hnodup _ _
      show _ ∧ _ ∧ _
      rw [List.foldl_cons]
      exact ih (unregisterObservable c k t) hnone1 hinact1 hnodup1

/-- Folding `unregisterObservable` over a key list containing `o` — as the
reaper does when `o` was not read during the pass — removes `o`'s entry and
deactivates every subscription on `o`. -/
theorem foldUnreg_removes_o (c o : Nat) (r0 : ObservableRegistration) :
    ∀ (L : List Nat) (t : SysState) (gen : Nat) (compReg : ComponentRegistration),
    alistGet c t.componentRegistrations = some (gen, compReg) →
    alistGet o compReg.observables = some r0 →
    (compReg.observables.map Prod.fst).Nodup →
    (∀ sub ∈ t.subs, sub.obsId = o → sub.id = r0.subscription) →
    (t.componentRegistrations.map Prod.fst).Nodup →
    o ∈ L →
    (∀ gen' compReg',
        alistGet c ((L.foldl (fun acc k => unregisterObservable c k acc)
            t)).componentRegistrations = some (gen', compReg') →
        alistGet o compReg'.observables = none)
    ∧ (∀ sub ∈ (L.foldl (fun acc k => unregisterObservable c k acc) t).subs,
        sub.obsId = o → sub.active = false)
    ∧ (((L.foldl (fun acc k => unregisterObservable c k acc)
          t)).componentRegistrations.map Prod.fst).Nodup := by
  intro L
  induction L with
  | nil =>
    intro t gen compReg _ _ _ _ _ hmem
    exact absurd hmem (List.not_mem_nil o)
  | cons k L' ih =>
    intro t gen compReg hreg hentry hobsnd hsubs hnodup hmem
    by_cases hko : o = k
    · subst hko
      have hsubsEq : (unregisterObservable c o t).subs
          = t.subs.map (fun sub =>
              if sub.id = r0.subscription then { sub with active := false } else sub) := by
        simp [unregisterObservable, hreg, hentry]
      have hregsEq : (unregisterObservable c o t).componentRegistrations
          = alistSet c (gen, { compReg with observables := alistDelete o compReg.observables })
              t.componentRegistrations := by
        simp [unregisterObservable, hreg]
      have hnone1 : ∀ gen' compReg',
          alistGet c (unregisterObservable c o t).componentRegistrations
            = some (gen', compReg') →
          alistGet o compReg'.observables = none := by
        intro gen' compReg' hlook
        rw [hregsEq, alistGet_set_self] at hlook
        simp only [Option.some.injEq, Prod.mk.injEq] at hlook
        obtain ⟨_, rfl⟩ := hlook
        exact alistGet_delete_self hobsnd
      have hinact1 : ∀ sub ∈ (unregisterObservable c o t).subs,
          sub.obsId = o → sub.active = false := by
        intro sub' hmem' hobs'
        rw [hsubsEq] at hmem'
        rw [List.mem_map] at hmem'
        obtain ⟨sub, hsub, heq⟩ := hmem'
        by_cases hP : sub.id = r0.subscription
        · rw [if_pos hP] at heq
          rw [← heq]
        · rw [if_neg hP] at heq
          rw [← heq] at hobs'
          exact absurd (hsubs sub hsub hobs') hP
      have hnodup1 : ((unregisterObservable c o t).componentRegistrations.map
          Prod.fst).Nodup := by
        rw [hregsEq]
        exact alistSet_keys_nodup hnodup _ _
      show _ ∧ _ ∧ _
      rw [List.foldl_cons]
      exact foldUnreg_stable c o L' (unregisterObservable c o t) hnone1 hinact1 hnodup1
    · have hmem' : o ∈ L' := by
        rcases List.mem_cons.mp hmem with hm | hm
        · exact absurd hm hko
        · exact hm
      obtain ⟨hR, hS, _⟩ := unregister_fields c k t hreg
      have hreg1 : alistGet c (unregisterObservable c k t).componentRegistrations
          = some (gen, { compReg with observables := alistDelete k compReg.observables }) := by
        rw [hR]
        exact alistGet_set_self _ _ _
      have hentry1 : alistGet o (alistDelete k compReg.observables) = some r0 := by
        rw [alistGet_delete_ne hko]
        exact hentry
      have hsubs1 : ∀ sub ∈ (unregisterObservable c k t).subs,
          sub.obsId = o → sub.id = r0.subscription := by
        rcases hS with hS | ⟨subId, hS⟩
        · rw [hS]
          exact hsubs
        · rw [hS]
          exact deactivateMap_subsOn hsubs
      have hnodup1 : ((unregisterObservable c k t).componentRegistrations.map
          Prod.fst).Nodup := by
        rw [hR]
        exact alistSet_keys_nodup hnodup _ _
      show _ ∧ _ ∧ _
      rw [List.foldl_cons]
      exact ih (unregisterObservable c k t) gen
        { compReg with observables := alistDelete k compReg.observables }
        hreg1 hentry1 (alistDelete_keys_nodup hobsnd k) hsubs1 hnodup1 hmem'

/-- `destroyIfUnused` does not resurrect a reaped stream: if `c` has no
entry for `o` and every subscription on `o` is inactive, the same holds
afterwards. -/
theorem destroyIfUnused_keeps_silence (c o : Nat) (t : SysState)
    (hnone : ∀ gen' compReg', alistGet c t.componentRegistrations = some (gen', compReg') →
        alistGet o compReg'.observables = none)
    (hinact : ∀ sub ∈ t.subs, sub.obsId = o → sub.active = false)
    (hnodup : (t.componentRegistrations.map Prod.fst).Nodup) :
    (∀ gen' compReg',
        alistGet c (destroyIfUnused c t).componentRegistrations = some (gen', compReg') →
        alistGet o compReg'.observables = none)
    ∧ (∀ sub ∈ (destroyIfUnused c t).subs, sub.obsId = o → sub.active = false) := by
  cases hget : alistGet c t.componentRegistrations with
  | none =>
    have hid : destroyIfUnused c t = t := by
      simp [destroyIfUnused, hget]
    rw [hid]
    exact ⟨hnone, hinact⟩
  | some v =>
    obtain ⟨g', cr'⟩ := v
    by_cases hcond : (cr'.recentlyUsedObservables.length = 0
        && cr'.promises.length = 0) = true
    · have hd : destroyIfUnused c t = destroy c t := by
        simp only [destroyIfUnused, hget]
        rw [if_pos hcond]
      rw [hd]
      constructor
      · intro gen' compReg' hlook
        have hgone : alistGet c (destroy c t).componentRegistrations = none := by
          simp only [destroy, hget]
          exact alistGet_delete_self hnodup
        rw [hgone] at hlook
        cases hlook
      · intro sub' hmem hobs
        simp only [destroy, hget] at hmem
        rw [List.mem_map] at hmem
        obtain ⟨sub, hsub, heq⟩ := hmem
        by_cases hP : (cr'.observables.any fun e => e.2.subscription = sub.id) = true
        · rw [if_pos hP] at heq
          rw [← heq]
        · rw [if_neg hP] at heq
          rw [← heq] at hobs ⊢
          exact hinact sub hsub hobs
    · have hid : destroyIfUnused c t = t := by
        simp only [destroyIfUnused, hget]
        rw [if_neg hcond]
      rw [hid]
      exact ⟨hnone, hinact⟩

/-! ## C5 — a stream read in pass N but not in pass N+1 is reaped and
silenced -/

/-- C5: if stream `o` has a binding (created when it was read in an earlier
pass) but the current pass's render body performs no read of `o`, then by
the time the wrapped render call returns the binding entry for `o` is gone,
every subscription on `o` has been cancelled, and a later emission from `o`
leaves the state — including the re-render log — completely unchanged. -/
theorem unused_stream_reaped_and_silenced
    (env : Env) (s : SysState) (c o gen n : Nat) (compReg : ComponentRegistration)
    (r0 : ObservableRegistration) (v : JSVal)
    (hreg : alistGet c s.componentRegistrations = some (gen, compReg))
    (horig : compReg.origRender = some (HookVal.orig n))
    (hentry : alistGet o compReg.observables = some r0)
    (hobsnodup : (compReg.observables.map Prod.fst).Nodup)
    (hsubs : ∀ sub ∈ s.subs, sub.obsId = o → sub.id = r0.subscription)
    (hnodup : (s.componentRegistrations.map Prod.fst).Nodup)
    (hnoread : ∀ rd ∈ (env.renderBehavior n).1,
        isPromise rd = false → isSubscribable rd = true → rd.srcId ≠ o) :
    (∀ gen' compReg',
        alistGet c ((wrappedRender env c s).1).componentRegistrations
          = some (gen', compReg') →
        alistGet o compReg'.observables = none)
    ∧ (∀ sub ∈ ((wrappedRender env c s).1).subs, sub.obsId = o → sub.active = false)
    ∧ emit o v ((wrappedRender env c s).1) = (wrappedRender env c s).1 := by
  have hmain : wrappedRender env c s
      = (destroyIfUnused c (reapUnused c (runReads env c
          (env.renderBehavior n).1 (clearRecentlyUsed c s))),
         (env.renderBehavior n).2) := by
    simp [wrappedRender, hreg, horig, origRenderBehavior]
  obtain ⟨compReg2, hreg2, hentry2, hnotused2, hobsnd2, hsubs2, hnodup2⟩ :=
    runReads_ReapReady env (env.renderBehavior n).1 hnoread (clearRecentlyUsed c s)
      (clearRecentlyUsed_ReapReady hreg hentry hobsnodup hsubs hnodup)
  have hreap : reapUnused c (runReads env c (env.renderBehavior n).1
        (clearRecentlyUsed c s))
      = ((compReg2.observables.map Prod.fst).filter
            (fun o' => !compReg2.recentlyUsedObservables.contains o')).foldl
          (fun acc o' => unregisterObservable c o' acc)
          (runReads env c (env.renderBehavior n).1 (clearRecentlyUsed c s)) := by
    simp only [reapUnused, hreg2]
  have homem : o ∈ (compReg2.observables.map Prod.fst).filter
      (fun o' => !compReg2.recentlyUsedObservables.contains o') := by
    rw [List.mem_filter]
    exact ⟨mem_keys_of_alistGet hentry2, by simpa using hnotused2⟩
  have h3 := foldUnreg_removes_o c o r0
    ((compReg2.observables.map Prod.fst).filter
      (fun o' => !compReg2.recentlyUsedObservables.contains o'))
    (runReads env c (env.renderBehavior n).1 (clearRecentlyUsed c s))
    gen compReg2 hreg2 hentry2 hobsnd2 hsubs2 hnodup2 homem
  rw [← hreap] at h3
  have h4 := destroyIfUnused_keeps_silence c o
    (reapUnused c (runReads env c (env.renderBehavior n).1 (clearRecentlyUsed c s)))
    h3.1 h3.2.1 h3.2.2
  rw [hmain]
  exact ⟨h4.1, h4.2, emit_of_no_active h4.2⟩

/-- The registration of a component that read stream `3` during render
pass N (no emission yet); used together with `stP` for the C5 witness. -/
def regP : ComponentRegistration :=
  { promises := [],
    observables := [(3, { subscription := 0, result := none })],
    recentlyUsedObservables := [3],
    origConnectedCallback := none, origDisconnectedCallback := none,
    origRender := some (HookVal.orig 1) }

/-- The reachable state after render pass N: component `0` (author render
`orig 1`) read stream `3`, which is subscribed and has not emitted. -/
def stP : SysState :=
  { components := [(0, { connectedCallback := some (HookVal.wrappedConnected 0),
                          disconnectedCallback := some (HookVal.wrappedDisconnected 0),
                          render := some (HookVal.wrappedRender 0) })],
    componentRegistrations := [(0, (0, regP))],
    subs := [{ id := 0, obsId := 3, comp := 0, active := true }],
    pendingThens := [], nextSub := 1, nextGen := 1, rerenders := [], errors := 0 }

/-- Witness for C5: running pass N+1 on `stP` with a render body that reads
nothing reaps stream `3`; a later emission of `9` on stream `3` then
changes nothing. -/
theorem unused_stream_reaped_and_silenced_witness :
    (∀ sub ∈ ((wrappedRender envC 0 stP).1).subs, sub.obsId = 3 → sub.active = false)
    ∧ emit 3 (JSVal.num 9) ((wrappedRender envC 0 stP).1)
        = (wrappedRender envC 0 stP).1 :=
  ⟨(unused_stream_reaped_and_silenced envC stP 0 3 0 1 regP
      { subscription := 0, result := none } (JSVal.num 9)
      (by decide) (by decide) (by decide) (by decide) (by decide) (by decide)
      (by decide)).2.1,
   (unused_stream_reaped_and_silenced envC stP 0 3 0 1 regP
      { subscription := 0, result := none } (JSVal.num 9)
      (by decide) (by decide) (by decide) (by decide) (by decide) (by decide)
      (by decide)).2.2⟩
